import Mathlib

/-!
Shallow embedding of the realtime reconciliation engine of src/client.js:
the entity cache, the fetch helpers, the realtime patch applicator and
differ (Client.handleRealtimeReceive), the push categorizer
(Client.handleFbnsReceive), and the pre-ready buffer and replayer
(the guard at the top of both handlers plus the replay loop in
Client.login).  The Chat / Message / User entity classes and the Util
path matchers are not part of src/; where they decide behaviour they are
modelled from the spec and their doc comments say so.
-/

namespace Insta

/-- Keyed collection lookup, modelling Collection.get: the first binding
of the key wins. -/
def cget {α : Type} (k : String) : List (String × α) → Option α
  | [] => none
  | (k', v) :: m => if k' = k then some v else cget k m

/-- Model of Collection.has. -/
def chas {α : Type} (k : String) (m : List (String × α)) : Bool :=
  (cget k m).isSome

/-- Model of Collection.set: replace the first binding of the key if it
exists, otherwise append a new binding. -/
def cset {α : Type} (k : String) (v : α) : List (String × α) → List (String × α)
  | [] => [(k, v)]
  | (k', v') :: m => if k' = k then (k, v) :: m else (k', v') :: cset k v m

/-- Decoded JSON payload of a thread, the shape consumed by Chat
construction and patching (thread_id, thread_title, users, video call and
pending flags). -/
structure ChatPayload where
  threadID : String
  name : Option String
  users : List String
  calling : Bool
  pending : Bool
deriving DecidableEq, Repr

/-- Decoded JSON payload of a direct message item (item_id, item_type,
the like records as user ids, and the renderable content if any). -/
structure MessagePayload where
  itemID : String
  itemType : String
  likes : List String
  content : Option String
deriving DecidableEq, Repr

/-- User entity: only the id is relevant to the engine's control flow. -/
structure User where
  id : String
deriving DecidableEq, Repr

/-- Message entity as cached inside a Chat's message mapping. -/
structure Message where
  id : String
  chatID : String
  itemType : String
  likes : List String
  content : Option String
deriving DecidableEq, Repr

/-- Chat entity: thread id, nullable name, member user ids, admin user
ids, calling flag, message mapping and pending flag. -/
structure Chat where
  id : String
  name : Option String
  users : List String
  adminUserIDs : List String
  calling : Bool
  messages : List (String × Message)
  pending : Bool
deriving DecidableEq, Repr

/-- Modelled from the spec: the Chat constructor (the Chat class file is
not under src/) builds a chat from a thread payload; per the data model
the admin list and the message mapping start empty and the pending flag
comes from the payload. -/
def Chat.ofPayload (threadID : String) (p : ChatPayload) : Chat :=
  { id := threadID
    name := p.name
    users := p.users
    adminUserIDs := []
    calling := p.calling
    messages := []
    pending := p.pending }

/-- Modelled from the spec: Chat._patch (not under src/) merges the new
payload in place over the name, the member set, the calling flag and the
pending flag, leaving id, admin list and message mapping untouched. -/
def Chat.patch (c : Chat) (p : ChatPayload) : Chat :=
  { c with
    name := p.name
    users := p.users
    calling := p.calling
    pending := p.pending }

/-- Message built from an add patch payload, owned by the given chat. -/
def Message.ofPayload (chatID : String) (p : MessagePayload) : Message :=
  { id := p.itemID
    chatID := chatID
    itemType := p.itemType
    likes := p.likes
    content := p.content }

/-- Modelled from the spec: Message._patch (not under src/) merges the
new payload over the mutable fields, in particular the like list. -/
def Message.patch (m : Message) (p : MessagePayload) : Message :=
  { m with
    itemType := p.itemType
    likes := p.likes
    content := p.content }

/-- Modelled from the spec: Util.isMessageValid (not under src/), the
external validity predicate — a non-system message with renderable
content. -/
def isMessageValid (m : Message) : Bool :=
  m.content.isSome

/-- Entity cache of the client (this.cache): users, chats and the
pending-chats view.  Message objects live nested in their chat. -/
structure Cache where
  users : List (String × User)
  chats : List (String × Chat)
  pendingChats : List (String × Chat)
deriving DecidableEq, Repr

/-- Environment oracle standing for the network calls the engine issues
but does not implement (spec section 6): directThread fetch, user info
fetch, and the directPending feed. -/
structure Env where
  threadFetch : String → ChatPayload
  userFetch : String → User
  pendingFeed : List ChatPayload

/-- Client.fetchChat (src/client.js lines 199-211): on a cache miss,
fetch the thread payload, construct a Chat and cache it; on a hit,
refetch and patch only when force is set, otherwise leave the cache
untouched; always return the cached chat. -/
def fetchChat (env : Env) (c : Cache) (chatID : String) (force : Bool) :
    Cache × Chat :=
  match cget chatID c.chats with
  | none =>
      let chat := Chat.ofPayload chatID (env.threadFetch chatID)
      ({ c with chats := cset chatID chat c.chats }, chat)
  | some chat =>
      if force then
        let chat' := Chat.patch chat (env.threadFetch chatID)
        ({ c with chats := cset chatID chat' c.chats }, chat')
      else (c, chat)

/-- Client.fetchUser (src/client.js lines 219-232), specialised to id
queries (the engine's handlers always pass ids): on a miss, fetch and
cache; on a hit, refetch only when force is set. -/
def fetchUser (env : Env) (c : Cache) (userID : String) (force : Bool) :
    Cache × User :=
  match cget userID c.users with
  | none =>
      let u := env.userFetch userID
      ({ c with users := cset userID u c.users }, u)
  | some u =>
      if force then
        let u' := env.userFetch userID
        ({ c with users := cset userID u' c.users }, u')
      else (c, u)

/-- Modelled from the spec: the outcome of the Util path matchers (not
under src/) — a closed classification of a patch path into thread,
message or admin category with the embedded ids extracted, or no match. -/
inductive PatchPath where
  | thread (threadID : String)
  | message (threadID : String)
  | admin (threadID : String) (userID : String)
  | unmatched (raw : String)
deriving DecidableEq, Repr

/-- Wire value of a patch operation.  JSON.parse of the nested value
string is modelled as the Option inside: none stands for a value that is
not parseable as the expected JSON shape (JSON.parse throws on it). -/
inductive PatchValue where
  | chatJson (p : Option ChatPayload)
  | msgJson (p : Option MessagePayload)
  | str (s : String)
deriving DecidableEq, Repr

/-- Decoding of the value as a thread payload (thread-replace branch). -/
def PatchValue.asChatPayload : PatchValue → Option ChatPayload
  | .chatJson p => p
  | _ => none

/-- Decoding of the value as a message payload (message branches). -/
def PatchValue.asMessagePayload : PatchValue → Option MessagePayload
  | .msgJson p => p
  | _ => none

/-- Use of the value directly as a string (the message-remove branch
reads data.value as the message id without parsing). -/
def PatchValue.asString : PatchValue → String
  | .str s => s
  | _ => ""

/-- One entry of rawMessage.data: an op tag, a classified path and the
wire value. -/
structure PatchData where
  op : String
  path : PatchPath
  value : PatchValue
deriving DecidableEq, Repr

/-- One element of the parsed topic-146 array, carrying its data list. -/
structure RawMessage where
  data : List PatchData
deriving DecidableEq, Repr

/-- Push notification payload as delivered to handleFbnsReceive:
pushCategory, optional sourceUserId, optional actionParams.id. -/
structure PushData where
  pushCategory : String
  sourceUserId : Option String
  actionParamsId : Option String
deriving DecidableEq, Repr

/-- Observable output of the engine: the named events of the event
emitter boundary, each with the payload the code passes to emit. -/
inductive Event where
  | rawRealtime (topic : String)
  | rawFbns (data : PushData)
  | chatNameUpdate (chat : Chat) (oldName newName : Option String)
  | chatUserAdd (chat : Chat) (userID : String)
  | chatUserRemove (chat : Chat) (userID : String)
  | callStart (chat : Chat)
  | callEnd (chat : Chat)
  | likeAdd (user : User) (message : Message)
  | likeRemove (user : User) (message : Message)
  | messageCreate (message : Message)
  | messageDelete (message : Message)
  | chatAdminAdd (chat : Chat) (user : User)
  | chatAdminRemove (chat : Chat) (user : User)
  | newFollower (user : User)
  | followRequest (user : User)
  | pendingRequest (chat : Chat)
  | liveNotification (data : PushData)
  | push (data : PushData)
  | connected
deriving DecidableEq, Repr

/-- Name comparison of the thread-replace differ (src/client.js lines
265-268): a changed name yields one chatNameUpdate with old and new
values. -/
def nameEvents (chat chat' : Chat) : List Event :=
  if chat.name ≠ chat'.name then
    [Event.chatNameUpdate chat' chat.name chat'.name]
  else []

/-- Member comparison of the thread-replace differ (src/client.js lines
270-277): size comparison picks the direction, then the first member of
the larger set missing from the smaller one is reported. -/
def memberEvents (chat chat' : Chat) : List Event :=
  if chat.users.length < chat'.users.length then
    match chat'.users.find? (fun u => !(chat.users.contains u)) with
    | some u => [Event.chatUserAdd chat' u]
    | none => []
  else if chat'.users.length < chat.users.length then
    match chat.users.find? (fun u => !(chat'.users.contains u)) with
    | some u => [Event.chatUserRemove chat' u]
    | none => []
  else []

/-- Calling-flag comparison of the thread-replace differ (src/client.js
lines 279-284). -/
def callEvents (chat chat' : Chat) : List Event :=
  if !chat.calling && chat'.calling then [Event.callStart chat']
  else if chat.calling && !chat'.calling then [Event.callEnd chat']
  else []

/-- Differ of the thread-replace branch (src/client.js lines 265-284):
compare the snapshot against the patched chat and collect, in the code's
order, the name-change event, the single membership delta and the
calling-flag transition. -/
def replaceEvents (chat chat' : Chat) : List Event :=
  nameEvents chat chat' ++ (memberEvents chat chat' ++ callEvents chat chat')

/-- JavaScript failure raised while handling one patch entry.  A sync
error is thrown synchronously inside the data forEach callback (the
JSON.parse of a thread-path value, src/client.js lines 263 and 286) and
aborts the remaining entries of the same data list; an async error occurs
inside a .then callback (the JSON.parse at lines 295 and 339, and the
TypeError of the like diff at line 304), becomes a rejected promise, and
does not stop the remaining entries. -/
inductive JsError where
  | sync (msg : String)
  | async (msg : String)
deriving DecidableEq, Repr

/-- Application of one patch operation (one entry of rawMessage.data) to
the cache: the switch on data.op inside handleRealtimeReceive
(src/client.js lines 255-377).  The returned Option JsError is the
JavaScript exception, if any, raised while handling the entry, tagged
sync or async by where it arises.  Asynchronous resolution via
fetchChat/fetchUser is modelled as resolving immediately through the
environment oracle. -/
def applyPatchData (env : Env) (c : Cache) (d : PatchData) :
    Cache × List Event × Option JsError :=
  if d.op = "replace" then
    match d.path with
    | .thread tid =>
      match cget tid c.chats with
      | some chat =>
        match d.value.asChatPayload with
        | none => (c, [], some (JsError.sync "SyntaxError: unparseable patch value"))
        | some p =>
          let chat' := Chat.patch chat p
          ({ c with chats := cset tid chat' c.chats },
           replaceEvents chat chat', none)
      | none =>
        match d.value.asChatPayload with
        | none => (c, [], some (JsError.sync "SyntaxError: unparseable patch value"))
        | some p =>
          let chat := Chat.ofPayload tid p
          ({ c with chats := cset chat.id chat c.chats }, [], none)
    | .message tid =>
      let r := fetchChat env c tid false
      let c1 := r.1
      let chat := r.2
      match d.value.asMessagePayload with
      | none => (c1, [], some (JsError.async "SyntaxError: unparseable patch value"))
      | some p =>
        match cget p.itemID chat.messages with
        | some msg =>
          let msg' := Message.patch msg p
          let chat' := { chat with messages := cset p.itemID msg' chat.messages }
          let c2 := { c1 with chats := cset tid chat' c1.chats }
          if msg'.likes.length < msg.likes.length then
            match msg.likes.find? (fun l => !(msg'.likes.contains l)) with
            | some removed =>
              let ru := fetchUser env c2 removed false
              (ru.1, [Event.likeRemove ru.2 msg'], none)
            | none => (c2, [], some (JsError.async "TypeError: removed like not found"))
          else if msg.likes.length < msg'.likes.length then
            match msg'.likes.find? (fun l => !(msg.likes.contains l)) with
            | some added =>
              let ru := fetchUser env c2 added false
              (ru.1, [Event.likeAdd ru.2 msg'], none)
            | none => (c2, [], none)
          else (c2, [], none)
        | none => (c1, [], none)
    | _ => (c, [], none)
  else if d.op = "add" then
    match d.path with
    | .admin tid uid =>
      let r := fetchChat env c tid false
      let chat' := { r.2 with adminUserIDs := r.2.adminUserIDs ++ [uid] }
      let c2 := { r.1 with chats := cset tid chat' r.1.chats }
      let ru := fetchUser env c2 uid false
      (ru.1, [Event.chatAdminAdd chat' ru.2], none)
    | .message tid =>
      let r := fetchChat env c tid false
      let c1 := r.1
      let chat := r.2
      match d.value.asMessagePayload with
      | none => (c1, [], some (JsError.async "SyntaxError: unparseable patch value"))
      | some p =>
        if p.itemType = "action_log" ∨ p.itemType = "video_call_event" then
          (c1, [], none)
        else
          let msg := Message.ofPayload tid p
          let chat' := { chat with messages := cset msg.id msg chat.messages }
          let c2 := { c1 with chats := cset tid chat' c1.chats }
          (c2, if isMessageValid msg then [Event.messageCreate msg] else [], none)
    | _ => (c, [], none)
  else if d.op = "remove" then
    match d.path with
    | .admin tid uid =>
      let r := fetchChat env c tid false
      let chat' := { r.2 with adminUserIDs := r.2.adminUserIDs ++ [uid] }
      let c2 := { r.1 with chats := cset tid chat' r.1.chats }
      let ru := fetchUser env c2 uid false
      (ru.1, [Event.chatAdminRemove chat' ru.2], none)
    | .message tid =>
      let r := fetchChat env c tid false
      let mid := d.value.asString
      match cget mid r.2.messages with
      | some existing => (r.1, [Event.messageDelete existing], none)
      | none => (r.1, [], none)
    | _ => (c, [], none)
  else (c, [], none)

/-- First error of two, modelling which exception surfaces first. -/
def firstErr : Option JsError → Option JsError → Option JsError
  | some e, _ => some e
  | none, e2 => e2

/-- Sequential application of a rawMessage's data list (the inner
forEach): a synchronously thrown error stops the remaining entries of the
same list, while an asynchronous rejection is recorded and the remaining
entries still process; effects already performed are kept. -/
def applyPatchList (env : Env) (c : Cache) :
    List PatchData → Cache × List Event × Option JsError
  | [] => (c, [], none)
  | d :: ds =>
    let r := applyPatchData env c d
    match r.2.2 with
    | some (JsError.sync e) => (r.1, r.2.1, some (JsError.sync e))
    | some (JsError.async e) =>
      let rest := applyPatchList env r.1 ds
      (rest.1, r.2.1 ++ rest.2.1,
       firstErr (some (JsError.async e)) rest.2.2)
    | none =>
      let rest := applyPatchList env r.1 ds
      (rest.1, r.2.1 ++ rest.2.1, rest.2.2)

/-- Sequential application of the parsed rawMessages array (the outer
forEach with an async callback): an error in one element does not stop
the following elements. -/
def applyRawMessages (env : Env) (c : Cache) :
    List RawMessage → Cache × List Event × Option JsError
  | [] => (c, [], none)
  | m :: ms =>
    let r := applyPatchList env c m.data
    let rest := applyRawMessages env r.1 ms
    (rest.1, r.2.1 ++ rest.2.1, firstErr r.2.2 rest.2.2)

/-- Ready-state body of Client.handleRealtimeReceive (src/client.js
lines 249-380): emit the raw passthrough event, and on the matching
topic parse the payload (none models an unparseable payload, on which
JSON.parse throws before any mutation) and apply every patch entry. -/
def realtimeBody (env : Env) (c : Cache) (topic : String)
    (payload : Option (List RawMessage)) : Cache × List Event × Option JsError :=
  let raw := [Event.rawRealtime topic]
  if topic = "146" then
    match payload with
    | none => (c, raw, some (JsError.sync "SyntaxError: unparseable payload"))
    | some msgs =>
      let r := applyRawMessages env c msgs
      (r.1, raw ++ r.2.1, r.2.2)
  else (c, raw, none)

/-- Pending-feed refresh of the direct_v2_pending branch (src/client.js
lines 416-421): every thread of the pending feed is reconstructed as a
Chat and inserted into both the chats and the pendingChats mappings. -/
def loadPendingFeed (threads : List ChatPayload) (c : Cache) : Cache :=
  threads.foldl
    (fun acc th =>
      let chat := Chat.ofPayload th.threadID th
      { acc with
        chats := cset th.threadID chat acc.chats
        pendingChats := cset th.threadID chat acc.pendingChats })
    c

/-- Ready-state body of Client.handleFbnsReceive (src/client.js lines
396-437): emit the raw passthrough event, then dispatch on
pushCategory. -/
def fbnsBody (env : Env) (c : Cache) (data : PushData) :
    Cache × List Event × Option JsError :=
  let raw := [Event.rawFbns data]
  if data.pushCategory = "new_follower" then
    match data.sourceUserId with
    | some uid =>
      let ru := fetchUser env c uid false
      (ru.1, raw ++ [Event.newFollower ru.2], none)
    | none => (c, raw, none)
  else if data.pushCategory = "private_user_follow_request" then
    match data.sourceUserId with
    | some uid =>
      let ru := fetchUser env c uid false
      (ru.1, raw ++ [Event.followRequest ru.2], none)
    | none => (c, raw, none)
  else if data.pushCategory = "direct_v2_pending" then
    match data.actionParamsId with
    | some pid =>
      if chas pid c.pendingChats then (c, raw, none)
      else
        let c' := loadPendingFeed env.pendingFeed c
        match cget pid c'.pendingChats with
        | some pchat => (c', raw ++ [Event.pendingRequest pchat], none)
        | none => (c', raw, none)
    | none => (c, raw, none)
  else if data.pushCategory = "live_broadcast" then
    (c, raw ++ [Event.liveNotification data], none)
  else
    (c, raw ++ [Event.push data], none)

/-- Inbound raw event, the tagged union buffered in eventsToReplay. -/
inductive InEvent where
  | realtime (topic : String) (payload : Option (List RawMessage))
  | fbns (data : PushData)
deriving DecidableEq, Repr

/-- Mutable state of the client relevant to the engine: the ready flag,
the eventsToReplay buffer and the entity cache. -/
structure ClientState where
  ready : Bool
  buffer : List InEvent
  cache : Cache
deriving DecidableEq, Repr

/-- Client.handleRealtimeReceive (src/client.js lines 240-381): while
not ready, append the raw event to eventsToReplay and return with no
other effect; when ready, run the body on the cache. -/
def handleRealtimeReceive (env : Env) (s : ClientState) (topic : String)
    (payload : Option (List RawMessage)) :
    ClientState × List Event × Option JsError :=
  if s.ready then
    let r := realtimeBody env s.cache topic payload
    ({ s with cache := r.1 }, r.2.1, r.2.2)
  else
    ({ s with buffer := s.buffer ++ [InEvent.realtime topic payload] }, [], none)

/-- Client.handleFbnsReceive (src/client.js lines 388-437): while not
ready, append the raw event to eventsToReplay and return with no other
effect; when ready, run the body on the cache. -/
def handleFbnsReceive (env : Env) (s : ClientState) (data : PushData) :
    ClientState × List Event × Option JsError :=
  if s.ready then
    let r := fbnsBody env s.cache data
    ({ s with cache := r.1 }, r.2.1, r.2.2)
  else
    ({ s with buffer := s.buffer ++ [InEvent.fbns data] }, [], none)

/-- Dispatch of one inbound raw event through the handler of its kind,
as both live delivery and the replay loop in Client.login do. -/
def processLive (env : Env) (s : ClientState) : InEvent →
    ClientState × List Event × Option JsError
  | .realtime t p => handleRealtimeReceive env s t p
  | .fbns d => handleFbnsReceive env s d

/-- Sequential processing of a list of inbound events through
processLive, accumulating emitted events and the first error. -/
def processAll (env : Env) (s : ClientState) :
    List InEvent → ClientState × List Event × Option JsError
  | [] => (s, [], none)
  | e :: es =>
    let r := processLive env s e
    let rest := processAll env r.1 es
    (rest.1, r.2.1 ++ rest.2.1, firstErr r.2.2 rest.2.2)

/-- Cache-level effect of one inbound event when ready. -/
def liveStep (env : Env) (e : InEvent) (c : Cache) :
    Cache × List Event × Option JsError :=
  match e with
  | .realtime t p => realtimeBody env c t p
  | .fbns d => fbnsBody env c d

/-- Cache-level effect of a list of inbound events when ready. -/
def stepFold (env : Env) (c : Cache) :
    List InEvent → Cache × List Event × Option JsError
  | [] => (c, [], none)
  | e :: es =>
    let r := liveStep env e c
    let rest := stepFold env r.1 es
    (rest.1, r.2.1 ++ rest.2.1, firstErr r.2.2 rest.2.2)

/-- Readiness signal: the tail of Client.login (src/client.js lines
609-622) — set ready, emit connected, replay every buffered event in
arrival order through the live handlers, then clear the buffer. -/
def fireReady (env : Env) (s : ClientState) :
    ClientState × List Event × Option JsError :=
  let s1 : ClientState := { s with ready := true }
  let r := processAll env s1 s.buffer
  ({ r.1 with buffer := [] }, Event.connected :: r.2.1, r.2.2)

/-- Chat-loading step of Client.login (src/client.js lines 572-582):
construct a Chat from every inbox or pending thread payload, cache it,
and additionally record it in pendingChats when its pending flag is
set. -/
def loadInboxThreads (threads : List ChatPayload) (c : Cache) : Cache :=
  threads.foldl
    (fun acc th =>
      let chat := Chat.ofPayload th.threadID th
      let acc' := { acc with chats := cset th.threadID chat acc.chats }
      if chat.pending then
        { acc' with pendingChats := cset th.threadID chat acc'.pendingChats }
      else acc')
    c

/-- Classifier used to count chatUserAdd emissions. -/
def Event.isChatUserAdd : Event → Bool
  | .chatUserAdd _ _ => true
  | _ => false

/-- Classifier used to count chatUserRemove emissions. -/
def Event.isChatUserRemove : Event → Bool
  | .chatUserRemove _ _ => true
  | _ => false

/-- Cache relation used for the pendingChats invariant: the operation
left the pendingChats mapping untouched and only ever grew the chats
mapping. -/
def cachePreserves (c c' : Cache) : Prop :=
  c'.pendingChats = c.pendingChats
  ∧ ∀ k, chas k c.chats = true → chas k c'.chats = true

/-- Invariant of claim C9: every chat id in the pendingChats mapping is
also in the chats mapping. -/
def pendingSubset (c : Cache) : Prop :=
  ∀ k : String, chas k c.pendingChats = true → chas k c.chats = true

/-- Concrete environment used by counterexamples and witnesses. -/
def envT : Env :=
  { threadFetch := fun tid =>
      { threadID := tid, name := none, users := [], calling := false,
        pending := false }
    userFetch := fun uid => { id := uid }
    pendingFeed := [] }

/-- Concrete message cached under chat t1. -/
def msgT : Message :=
  { id := "m1", chatID := "t1", itemType := "text", likes := [],
    content := some "hi" }

/-- Concrete chat cached under id t1. -/
def chatT : Chat :=
  { id := "t1", name := some "alpha", users := ["u1"], adminUserIDs := [],
    calling := false, messages := [("m1", msgT)], pending := false }

/-- Concrete cache holding chat t1 only. -/
def cacheT : Cache :=
  { users := [], chats := [("t1", chatT)], pendingChats := [] }

/-- Payload growing the member set of chatT by exactly the user u2. -/
def growPayloadT : ChatPayload :=
  { threadID := "t1", name := some "alpha", users := ["u1", "u2"],
    calling := false, pending := false }

/-- Payload shrinking the member set of chatT to empty (one removal). -/
def shrinkPayloadT : ChatPayload :=
  { threadID := "t1", name := some "alpha", users := [],
    calling := false, pending := false }

/-- Payload changing only the name of chatT. -/
def namePayloadT : ChatPayload :=
  { threadID := "t1", name := some "beta", users := ["u1"],
    calling := false, pending := false }

/-- Concrete push payload with category new_follower. -/
def followerPushT : PushData :=
  { pushCategory := "new_follower", sourceUserId := some "u7",
    actionParamsId := none }

/-- Concrete push payload with an unrecognized category. -/
def unknownPushT : PushData :=
  { pushCategory := "post_like", sourceUserId := none,
    actionParamsId := none }

/-- Concrete empty cache. -/
def cacheE : Cache :=
  { users := [], chats := [], pendingChats := [] }

theorem cget_cset {α : Type} (j k : String) (v : α) (m : List (String × α)) :
    cget j (cset k v m) = if k = j then some v else cget j m := by
  induction m with
  | nil => simp [cget, cset]
  | cons kv m ih =>
    obtain ⟨k', v'⟩ := kv
    by_cases hk : k' = k
    · subst hk
      by_cases hj : k' = j
      · subst hj
        simp [cget, cset]
      · simp [cget, cset, hj]
    · by_cases hj : k' = j
      · subst hj
        have hkj : ¬ k = k' := fun hkk => hk hkk.symm
        simp [cget, cset, hk, hkj]
      · simp [cget, cset, hk, hj, ih]

theorem chas_cset {α : Type} (j k : String) (v : α) (m : List (String × α)) :
    chas j (cset k v m) = if k = j then true else chas j m := by
  simp only [chas, cget_cset]
  by_cases h : k = j <;> simp [h]

theorem cget_cset_self {α : Type} (k : String) (v : α) (m : List (String × α)) :
    cget k (cset k v m) = some v := by
  simp [cget_cset]

theorem chas_cset_self {α : Type} (k : String) (v : α) (m : List (String × α)) :
    chas k (cset k v m) = true := by
  simp [chas, cget_cset_self]

theorem chas_cset_mono {α : Type} (j k : String) (v : α) (m : List (String × α))
    (h : chas j m = true) : chas j (cset k v m) = true := by
  rw [chas_cset]
  by_cases hk : k = j <;> simp [hk, h]

theorem chas_cset_elim {α : Type} (j k : String) (v : α) (m : List (String × α))
    (h : chas j (cset k v m) = true) : j = k ∨ chas j m = true := by
  rw [chas_cset] at h
  by_cases hk : k = j
  · exact Or.inl hk.symm
  · simp [hk] at h
    exact Or.inr h

theorem fetchChat_cached (env : Env) (c : Cache) (chatID : String) (chat : Chat)
    (h : cget chatID c.chats = some chat) :
    fetchChat env c chatID false = (c, chat) := by
  unfold fetchChat
  rw [h]
  rfl

theorem fetchUser_chats (env : Env) (c : Cache) (userID : String) (force : Bool) :
    (fetchUser env c userID force).1.chats = c.chats := by
  unfold fetchUser
  split
  · rfl
  · split <;> rfl

theorem fetchUser_pendingChats (env : Env) (c : Cache) (userID : String) (force : Bool) :
    (fetchUser env c userID force).1.pendingChats = c.pendingChats := by
  unfold fetchUser
  split
  · rfl
  · split <;> rfl

theorem fetchChat_pendingChats (env : Env) (c : Cache) (chatID : String) (force : Bool) :
    (fetchChat env c chatID force).1.pendingChats = c.pendingChats := by
  unfold fetchChat
  split
  · rfl
  · split <;> rfl

theorem fetchChat_chats_mono (env : Env) (c : Cache) (chatID : String) (force : Bool)
    (k : String) (h : chas k c.chats = true) :
    chas k (fetchChat env c chatID force).1.chats = true := by
  unfold fetchChat
  split
  · exact chas_cset_mono k chatID _ c.chats h
  · split
    · exact chas_cset_mono k chatID _ c.chats h
    · exact h

theorem applyPatchData_replace_thread_cached (env : Env) (c : Cache) (tid : String)
    (chat : Chat) (p : ChatPayload) (h : cget tid c.chats = some chat) :
    applyPatchData env c ⟨"replace", PatchPath.thread tid, PatchValue.chatJson (some p)⟩
      = ({ c with chats := cset tid (Chat.patch chat p) c.chats },
         replaceEvents chat (Chat.patch chat p), none) := by
  unfold applyPatchData
  rw [if_pos rfl]
  simp only [PatchValue.asChatPayload, h]

theorem find?_eq_of_unique {α : Type} (p : α → Bool) (l : List α) (u : α)
    (hu : u ∈ l) (hp : p u = true) (huniq : ∀ x ∈ l, p x = true → x = u) :
    l.find? p = some u := by
  induction l with
  | nil => cases hu
  | cons a as ih =>
    by_cases hpa : p a = true
    · have ha : a = u := huniq a (List.mem_cons_self a as) hpa
      subst ha
      exact List.find?_cons_of_pos as hpa
    · rw [List.find?_cons_of_neg as hpa]
      have hne : u ≠ a := by
        intro hua
        exact hpa (hua ▸ hp)
      have hu' : u ∈ as := by
        rcases List.mem_cons.mp hu with hcase | hcase
        · exact absurd hcase hne
        · exact hcase
      exact ih hu' (fun x hx hpx => huniq x (List.mem_cons_of_mem a hx) hpx)

theorem processLive_notReady (env : Env) (b : List InEvent) (c : Cache)
    (e : InEvent) :
    processLive env ⟨false, b, c⟩ e = (⟨false, b ++ [e], c⟩, [], none) := by
  cases e <;> rfl

theorem processAll_notReady (env : Env) (b : List InEvent) (c : Cache)
    (es : List InEvent) :
    processAll env ⟨false, b, c⟩ es = (⟨false, b ++ es, c⟩, [], none) := by
  induction es generalizing b with
  | nil => simp [processAll]
  | cons e es ih =>
    rw [processAll, processLive_notReady]
    simp [ih (b ++ [e]), firstErr]

theorem processLive_ready (env : Env) (b : List InEvent) (c : Cache)
    (e : InEvent) :
    processLive env ⟨true, b, c⟩ e
      = (⟨true, b, (liveStep env e c).1⟩, (liveStep env e c).2.1,
         (liveStep env e c).2.2) := by
  cases e <;> rfl

theorem processAll_ready (env : Env) (b : List InEvent) (c : Cache)
    (es : List InEvent) :
    processAll env ⟨true, b, c⟩ es
      = (⟨true, b, (stepFold env c es).1⟩, (stepFold env c es).2.1,
         (stepFold env c es).2.2) := by
  induction es generalizing c with
  | nil => simp [processAll, stepFold]
  | cons e es ih =>
    rw [processAll, processLive_ready]
    simp [ih (liveStep env e c).1, stepFold]

theorem cachePreserves_refl (c : Cache) : cachePreserves c c :=
  ⟨rfl, fun _ h => h⟩

theorem cachePreserves_trans {a b c : Cache} (h1 : cachePreserves a b)
    (h2 : cachePreserves b c) : cachePreserves a c :=
  ⟨h2.1.trans h1.1, fun k hk => h2.2 k (h1.2 k hk)⟩

theorem cachePreserves_csetChats {c0 c : Cache} (k : String) (v : Chat)
    (h : cachePreserves c0 c) :
    cachePreserves c0 { c with chats := cset k v c.chats } :=
  ⟨h.1, fun j hj => chas_cset_mono j k v c.chats (h.2 j hj)⟩

theorem cachePreserves_fetchChat {c0 : Cache} (env : Env) (c : Cache)
    (chatID : String) (force : Bool) (h : cachePreserves c0 c) :
    cachePreserves c0 (fetchChat env c chatID force).1 := by
  refine cachePreserves_trans h ⟨fetchChat_pendingChats env c chatID force, ?_⟩
  intro k hk
  exact fetchChat_chats_mono env c chatID force k hk

theorem cachePreserves_fetchUser {c0 : Cache} (env : Env) (c : Cache)
    (userID : String) (force : Bool) (h : cachePreserves c0 c) :
    cachePreserves c0 (fetchUser env c userID force).1 := by
  refine cachePreserves_trans h ⟨fetchUser_pendingChats env c userID force, ?_⟩
  intro k hk
  rw [fetchUser_chats env c userID force]
  exact hk

theorem applyPatchData_preserves (env : Env) (c : Cache) (d : PatchData) :
    cachePreserves c (applyPatchData env c d).1 := by
  unfold applyPatchData
  dsimp only
  repeat' split
  all_goals
    first
    | exact cachePreserves_refl c
    | exact cachePreserves_csetChats _ _ (cachePreserves_refl c)
    | exact cachePreserves_fetchChat env c _ false (cachePreserves_refl c)
    | exact cachePreserves_csetChats _ _
        (cachePreserves_fetchChat env c _ false (cachePreserves_refl c))
    | exact cachePreserves_fetchUser env _ _ false
        (cachePreserves_csetChats _ _
          (cachePreserves_fetchChat env c _ false (cachePreserves_refl c)))

theorem applyPatchList_preserves (env : Env) (c : Cache) (ds : List PatchData) :
    cachePreserves c (applyPatchList env c ds).1 := by
  induction ds generalizing c with
  | nil => exact cachePreserves_refl c
  | cons d ds ih =>
    rw [applyPatchList]
    dsimp only
    split
    · exact applyPatchData_preserves env c d
    · exact cachePreserves_trans (applyPatchData_preserves env c d)
        (ih (applyPatchData env c d).1)
    · exact cachePreserves_trans (applyPatchData_preserves env c d)
        (ih (applyPatchData env c d).1)

theorem applyRawMessages_preserves (env : Env) (c : Cache)
    (ms : List RawMessage) :
    cachePreserves c (applyRawMessages env c ms).1 := by
  induction ms generalizing c with
  | nil => exact cachePreserves_refl c
  | cons m ms ih =>
    rw [applyRawMessages]
    exact cachePreserves_trans (applyPatchList_preserves env c m.data)
      (ih (applyPatchList env c m.data).1)

theorem realtimeBody_preserves (env : Env) (c : Cache) (topic : String)
    (payload : Option (List RawMessage)) :
    cachePreserves c (realtimeBody env c topic payload).1 := by
  unfold realtimeBody
  dsimp only
  repeat' split
  all_goals
    first
    | exact cachePreserves_refl c
    | exact applyRawMessages_preserves env c _

theorem pendingSubset_of_preserves {c c' : Cache} (h : cachePreserves c c')
    (hs : pendingSubset c) : pendingSubset c' := by
  intro k hk
  rw [h.1] at hk
  exact h.2 k (hs k hk)

theorem loadPendingFeed_subset (threads : List ChatPayload) (c : Cache)
    (h : pendingSubset c) : pendingSubset (loadPendingFeed threads c) := by
  induction threads generalizing c with
  | nil => exact h
  | cons th ts ih =>
    refine ih _ ?_
    intro j hj
    rcases chas_cset_elim j th.threadID _ c.pendingChats hj with hk | hold
    · subst hk
      exact chas_cset_self _ _ c.chats
    · exact chas_cset_mono j th.threadID _ c.chats (h j hold)

theorem fbnsBody_subset (env : Env) (c : Cache) (data : PushData)
    (h : pendingSubset c) : pendingSubset (fbnsBody env c data).1 := by
  unfold fbnsBody
  dsimp only
  repeat' split
  all_goals
    first
    | exact h
    | exact pendingSubset_of_preserves
        (cachePreserves_fetchUser env c _ false (cachePreserves_refl c)) h
    | exact loadPendingFeed_subset env.pendingFeed c h

theorem liveStep_subset (env : Env) (e : InEvent) (c : Cache)
    (h : pendingSubset c) : pendingSubset (liveStep env e c).1 := by
  cases e with
  | realtime t p =>
    exact pendingSubset_of_preserves (realtimeBody_preserves env c t p) h
  | fbns d => exact fbnsBody_subset env c d h

theorem processLive_subset (env : Env) (s : ClientState) (e : InEvent)
    (h : pendingSubset s.cache) :
    pendingSubset ((processLive env s e).1).cache := by
  obtain ⟨r, b, c⟩ := s
  cases r with
  | false =>
    rw [processLive_notReady]
    exact h
  | true =>
    rw [processLive_ready]
    exact liveStep_subset env e c h

theorem nameEvents_no_member (chat chat' : Chat) :
    (nameEvents chat chat').filter Event.isChatUserAdd = []
    ∧ (nameEvents chat chat').filter Event.isChatUserRemove = [] := by
  unfold nameEvents
  split <;> exact ⟨rfl, rfl⟩

theorem callEvents_no_member (chat chat' : Chat) :
    (callEvents chat chat').filter Event.isChatUserAdd = []
    ∧ (callEvents chat chat').filter Event.isChatUserRemove = [] := by
  unfold callEvents
  split
  · exact ⟨rfl, rfl⟩
  · split <;> exact ⟨rfl, rfl⟩

theorem memberEvents_grow (chat chat' : Chat) (u : String)
    (hlt : chat.users.length < chat'.users.length)
    (hfind : chat'.users.find? (fun x => !(chat.users.contains x)) = some u) :
    memberEvents chat chat' = [Event.chatUserAdd chat' u] := by
  unfold memberEvents
  rw [if_pos hlt, hfind]

theorem memberEvents_shrink (chat chat' : Chat) (r : String)
    (hgt : chat'.users.length < chat.users.length)
    (hfind : chat.users.find? (fun x => !(chat'.users.contains x)) = some r) :
    memberEvents chat chat' = [Event.chatUserRemove chat' r] := by
  unfold memberEvents
  rw [if_neg (by omega), if_pos hgt, hfind]

theorem loadInboxThreads_subset (threads : List ChatPayload) (c : Cache)
    (h : pendingSubset c) : pendingSubset (loadInboxThreads threads c) := by
  induction threads generalizing c with
  | nil => exact h
  | cons th ts ih =>
    refine ih _ ?_
    dsimp only
    split
    · intro j hj
      rcases chas_cset_elim j th.threadID _ c.pendingChats hj with hk | hold
      · subst hk
        exact chas_cset_self _ _ c.chats
      · exact chas_cset_mono j th.threadID _ c.chats (h j hold)
    · intro j hj
      exact chas_cset_mono j th.threadID _ c.chats (h j hj)

theorem processAll_subset (env : Env) (s : ClientState) (es : List InEvent)
    (h : pendingSubset s.cache) :
    pendingSubset ((processAll env s es).1).cache := by
  induction es generalizing s with
  | nil => exact h
  | cons e es ih =>
    rw [processAll]
    dsimp only
    exact ih _ (processLive_subset env s e h)

theorem fireReady_subset (env : Env) (s : ClientState)
    (h : pendingSubset s.cache) :
    pendingSubset ((fireReady env s).1).cache := by
  unfold fireReady
  dsimp only
  exact processAll_subset env _ s.buffer h

/-- C10: for a chat id already in the chat cache, fetchChat with force
false performs no fetch and no mutation — it returns the cached Chat and
leaves the cache identical — and calling it again is the same
(idempotence). -/
theorem fetchChat_cached_noop (env : Env) (c : Cache) (chatID : String)
    (chat : Chat) (h : cget chatID c.chats = some chat) :
    fetchChat env c chatID false = (c, chat)
    ∧ fetchChat env (fetchChat env c chatID false).1 chatID false = (c, chat) := by
  have h1 := fetchChat_cached env c chatID chat h
  refine ⟨h1, ?_⟩
  rw [h1]
  exact h1

/-- Witness for C10 at a concrete cached chat. -/
theorem fetchChat_cached_noop_witness :
    fetchChat envT cacheT "t1" false = (cacheT, chatT) :=
  (fetchChat_cached_noop envT cacheT "t1" chatT (by decide)).1

/-- C1: counterexample — a remove patch on the message path for an id
present in the chat's message mapping emits messageDelete but leaves the
cache completely unchanged, so the id is still present afterwards,
contrary to the claim that it becomes absent. -/
theorem removeMessagePresent_cx :
    applyPatchData envT cacheT
        ⟨"remove", PatchPath.message "t1", PatchValue.str "m1"⟩
      = (cacheT, [Event.messageDelete msgT], none)
    ∧ chas "m1" chatT.messages = true := by
  constructor
  · decide
  · decide

/-- C1 as amended: a remove patch on the message path over a cached chat
leaves the entire cache unchanged (the id is never dropped from the
message mapping); if the id is present it emits exactly one messageDelete
carrying the cached message object, and if absent it emits nothing. -/
theorem removeMessageNoDrop (env : Env) (c : Cache) (tid mid : String)
    (chat : Chat) (h : cget tid c.chats = some chat) :
    applyPatchData env c ⟨"remove", PatchPath.message tid, PatchValue.str mid⟩
      = (c,
         (match cget mid chat.messages with
          | some m => [Event.messageDelete m]
          | none => []),
         none) := by
  have hop1 : ¬ ("remove" : String) = "replace" := by decide
  have hop2 : ¬ ("remove" : String) = "add" := by decide
  unfold applyPatchData
  rw [if_neg hop1, if_neg hop2, if_pos rfl]
  dsimp only [PatchValue.asString]
  rw [fetchChat_cached env c tid chat h]
  cases hm : cget mid chat.messages <;> rfl

/-- Witness for the amended C1 at a concrete present id. -/
theorem removeMessageNoDrop_witness :
    applyPatchData envT cacheT
        ⟨"remove", PatchPath.message "t1", PatchValue.str "m1"⟩
      = (cacheT, [Event.messageDelete msgT], none) := by
  rw [removeMessageNoDrop envT cacheT "t1" "m1" chatT (by decide)]
  decide

/-- C6: a replace patch on a thread path whose id is not cached
constructs a Chat from the payload, inserts it into the chat cache, and
emits no event. -/
theorem replaceThreadFirstSight (env : Env) (c : Cache) (tid : String)
    (p : ChatPayload) (hc : cget tid c.chats = none) :
    applyPatchData env c ⟨"replace", PatchPath.thread tid, PatchValue.chatJson (some p)⟩
      = ({ c with chats := cset tid (Chat.ofPayload tid p) c.chats }, [], none) := by
  unfold applyPatchData
  rw [if_pos rfl]
  dsimp only [PatchValue.asChatPayload]
  rw [hc]
  rfl

/-- Witness for C6 on the empty cache. -/
theorem replaceThreadFirstSight_witness :
    applyPatchData envT cacheE
        ⟨"replace", PatchPath.thread "t9", PatchValue.chatJson (some growPayloadT)⟩
      = ({ cacheE with
           chats := cset "t9" (Chat.ofPayload "t9" growPayloadT) cacheE.chats },
         [], none) :=
  replaceThreadFirstSight envT cacheE "t9" growPayloadT (by decide)

/-- C2: events arriving while not ready cause no cache mutation and no
emission, only buffering in arrival order; firing the readiness signal
replays the whole buffer through the live handlers and yields exactly the
state, event sequence and error outcome of live processing (with the
connected emission of the readiness transition in front); afterwards the
buffer is empty and the ready flag is set, and processing any event in
the ready state never buffers again. -/
theorem bufferReplayEquiv (env : Env) (c0 : Cache) (es : List InEvent) :
    processAll env ⟨false, [], c0⟩ es = (⟨false, es, c0⟩, [], none)
    ∧ fireReady env ⟨false, es, c0⟩
        = ((processAll env ⟨true, [], c0⟩ es).1,
           Event.connected :: (processAll env ⟨true, [], c0⟩ es).2.1,
           (processAll env ⟨true, [], c0⟩ es).2.2)
    ∧ (fireReady env ⟨false, es, c0⟩).1.buffer = []
    ∧ (fireReady env ⟨false, es, c0⟩).1.ready = true
    ∧ (∀ b c e, (processLive env ⟨true, b, c⟩ e).1.ready = true
        ∧ (processLive env ⟨true, b, c⟩ e).1.buffer = b) := by
  refine ⟨?_, ?_, ?_, ?_, ?_⟩
  · simpa using processAll_notReady env [] c0 es
  · unfold fireReady
    dsimp only
    rw [processAll_ready env es c0 es, processAll_ready env [] c0 es]
  · unfold fireReady
    rfl
  · unfold fireReady
    dsimp only
    rw [processAll_ready env es c0 es]
  · intro b c e
    cases e <;> exact ⟨rfl, rfl⟩

/-- C3: counterexample — a delivery on the matching topic whose payload
is not parseable as JSON is not absorbed silently: the parse error is
thrown (modelled by the error component), contrary to the claim that the
engine never throws on malformed input. -/
theorem malformedRealtime_cx :
    handleRealtimeReceive envT ⟨true, [], cacheT⟩ "146" none
      = (⟨true, [], cacheT⟩, [Event.rawRealtime "146"],
         some (JsError.sync "SyntaxError: unparseable payload")) := by
  rfl

/-- C3 as amended: a malformed JSON value is never absorbed silently —
every parse failure raises an error.  A malformed top-level payload
emits only the raw passthrough event, mutates nothing, and throws
synchronously, so its patch entries are never reached; a malformed
nested value on a thread path (cached or not) mutates nothing, emits
nothing, and throws synchronously, which stops the remaining entries of
the same data list; a malformed nested value on a message path (replace
or add) emits nothing and performs no mutation beyond the chat
resolution already done by fetchChat, and the error is an asynchronous
promise rejection inside the then-callback, which does not stop the
remaining entries of the data list. -/
theorem malformedRealtimeThrows (env : Env) (b : List InEvent) (c : Cache)
    (tid : String) (ds : List PatchData) :
    handleRealtimeReceive env ⟨true, b, c⟩ "146" none
      = (⟨true, b, c⟩, [Event.rawRealtime "146"],
         some (JsError.sync "SyntaxError: unparseable payload"))
    ∧ applyPatchData env c
        ⟨"replace", PatchPath.thread tid, PatchValue.chatJson none⟩
        = (c, [], some (JsError.sync "SyntaxError: unparseable patch value"))
    ∧ applyPatchList env c
        (⟨"replace", PatchPath.thread tid, PatchValue.chatJson none⟩ :: ds)
        = (c, [], some (JsError.sync "SyntaxError: unparseable patch value"))
    ∧ applyPatchData env c
        ⟨"replace", PatchPath.message tid, PatchValue.msgJson none⟩
        = ((fetchChat env c tid false).1, [],
           some (JsError.async "SyntaxError: unparseable patch value"))
    ∧ applyPatchData env c
        ⟨"add", PatchPath.message tid, PatchValue.msgJson none⟩
        = ((fetchChat env c tid false).1, [],
           some (JsError.async "SyntaxError: unparseable patch value"))
    ∧ applyPatchList env c
        (⟨"replace", PatchPath.message tid, PatchValue.msgJson none⟩ :: ds)
        = ((applyPatchList env (fetchChat env c tid false).1 ds).1,
           (applyPatchList env (fetchChat env c tid false).1 ds).2.1,
           firstErr (some (JsError.async "SyntaxError: unparseable patch value"))
             (applyPatchList env (fetchChat env c tid false).1 ds).2.2) := by
  have hthread : applyPatchData env c
      ⟨"replace", PatchPath.thread tid, PatchValue.chatJson none⟩
      = (c, [], some (JsError.sync "SyntaxError: unparseable patch value")) := by
    unfold applyPatchData
    rw [if_pos rfl]
    dsimp only [PatchValue.asChatPayload]
    cases hm : cget tid c.chats <;> rfl
  have hmsg : applyPatchData env c
      ⟨"replace", PatchPath.message tid, PatchValue.msgJson none⟩
      = ((fetchChat env c tid false).1, [],
         some (JsError.async "SyntaxError: unparseable patch value")) := by
    unfold applyPatchData
    rw [if_pos rfl]
    rfl
  refine ⟨rfl, hthread, ?_, hmsg, ?_, ?_⟩
  · rw [applyPatchList]
    dsimp only
    rw [hthread]
  · have hop1 : ¬ ("add" : String) = "replace" := by decide
    unfold applyPatchData
    rw [if_neg hop1, if_pos rfl]
    rfl
  · rw [applyPatchList]
    dsimp only
    rw [hmsg]
    rfl

/-- C5: a replace patch on a cached chat whose payload changes only the
name (member list and calling flag unchanged) emits exactly one
chatNameUpdate with the old and new values and no other event at all —
in particular no chatUserAdd, chatUserRemove, callStart or callEnd. -/
theorem replaceNameOnly (env : Env) (c : Cache) (tid : String) (chat : Chat)
    (p : ChatPayload) (hc : cget tid c.chats = some chat)
    (husers : p.users = chat.users) (hcall : p.calling = chat.calling)
    (hname : p.name ≠ chat.name) :
    applyPatchData env c
        ⟨"replace", PatchPath.thread tid, PatchValue.chatJson (some p)⟩
      = ({ c with chats := cset tid (Chat.patch chat p) c.chats },
         [Event.chatNameUpdate (Chat.patch chat p) chat.name p.name],
         none) := by
  rw [applyPatchData_replace_thread_cached env c tid chat p hc]
  have hne : chat.name ≠ p.name := fun hcontra => hname hcontra.symm
  have hevents : replaceEvents chat (Chat.patch chat p)
      = [Event.chatNameUpdate (Chat.patch chat p) chat.name p.name] := by
    unfold replaceEvents nameEvents memberEvents callEvents
    simp only [Chat.patch]
    rw [husers, hcall, if_pos hne,
      if_neg (lt_irrefl chat.users.length), if_neg (lt_irrefl chat.users.length)]
    cases hcb : chat.calling <;> simp
  rw [hevents]

/-- Witness for C5 at a concrete name-only payload. -/
theorem replaceNameOnly_witness :
    applyPatchData envT cacheT
        ⟨"replace", PatchPath.thread "t1", PatchValue.chatJson (some namePayloadT)⟩
      = ({ cacheT with chats := cset "t1" (Chat.patch chatT namePayloadT) cacheT.chats },
         [Event.chatNameUpdate (Chat.patch chatT namePayloadT)
            chatT.name namePayloadT.name],
         none) :=
  replaceNameOnly envT cacheT "t1" chatT namePayloadT (by decide) (by decide)
    (by decide) (by decide)

/-- C7: a remove patch on the admin path resolves the chat, appends the
user id to the chat's admin-id list (the code appends instead of
removing), resolves the user through fetchUser, and emits exactly one
chatAdminRemove carrying the updated chat and the resolved user; the
appended chat is what the cache then holds under the thread id. -/
theorem adminRemoveAppends (env : Env) (c : Cache) (tid uid : String)
    (v : PatchValue) :
    applyPatchData env c ⟨"remove", PatchPath.admin tid uid, v⟩
      = ((fetchUser env
            { (fetchChat env c tid false).1 with
              chats := cset tid
                { (fetchChat env c tid false).2 with
                  adminUserIDs := (fetchChat env c tid false).2.adminUserIDs ++ [uid] }
                (fetchChat env c tid false).1.chats } uid false).1,
         [Event.chatAdminRemove
            { (fetchChat env c tid false).2 with
              adminUserIDs := (fetchChat env c tid false).2.adminUserIDs ++ [uid] }
            (fetchUser env
              { (fetchChat env c tid false).1 with
                chats := cset tid
                  { (fetchChat env c tid false).2 with
                    adminUserIDs := (fetchChat env c tid false).2.adminUserIDs ++ [uid] }
                  (fetchChat env c tid false).1.chats } uid false).2],
         none)
    ∧ cget tid (applyPatchData env c ⟨"remove", PatchPath.admin tid uid, v⟩).1.chats
        = some { (fetchChat env c tid false).2 with
                 adminUserIDs := (fetchChat env c tid false).2.adminUserIDs ++ [uid] } := by
  have hop1 : ¬ ("remove" : String) = "replace" := by decide
  have hop2 : ¬ ("remove" : String) = "add" := by decide
  have hmain : applyPatchData env c ⟨"remove", PatchPath.admin tid uid, v⟩
      = ((fetchUser env
            { (fetchChat env c tid false).1 with
              chats := cset tid
                { (fetchChat env c tid false).2 with
                  adminUserIDs := (fetchChat env c tid false).2.adminUserIDs ++ [uid] }
                (fetchChat env c tid false).1.chats } uid false).1,
         [Event.chatAdminRemove
            { (fetchChat env c tid false).2 with
              adminUserIDs := (fetchChat env c tid false).2.adminUserIDs ++ [uid] }
            (fetchUser env
              { (fetchChat env c tid false).1 with
                chats := cset tid
                  { (fetchChat env c tid false).2 with
                    adminUserIDs := (fetchChat env c tid false).2.adminUserIDs ++ [uid] }
                  (fetchChat env c tid false).1.chats } uid false).2],
         none) := by
    unfold applyPatchData
    rw [if_neg hop1, if_neg hop2, if_pos rfl]
  refine ⟨hmain, ?_⟩
  rw [hmain]
  dsimp only
  rw [fetchUser_chats]
  exact cget_cset_self tid _ _

/-- C8: a new_follower push with a resolvable source user id, processed
while ready, emits exactly one newFollower carrying the resolved user
(after the raw passthrough); an unrecognized category emits exactly one
catch-all push event carrying the raw payload verbatim and changes
nothing; and the push handler never throws on any payload shape in any
state. -/
theorem fbnsDispatch (env : Env) (b : List InEvent) (c : Cache)
    (data : PushData) :
    (∀ uid, data.pushCategory = "new_follower" → data.sourceUserId = some uid →
      handleFbnsReceive env ⟨true, b, c⟩ data
        = (⟨true, b, (fetchUser env c uid false).1⟩,
           [Event.rawFbns data, Event.newFollower (fetchUser env c uid false).2],
           none))
    ∧ (data.pushCategory ≠ "new_follower" →
       data.pushCategory ≠ "private_user_follow_request" →
       data.pushCategory ≠ "direct_v2_pending" →
       data.pushCategory ≠ "live_broadcast" →
       handleFbnsReceive env ⟨true, b, c⟩ data
         = (⟨true, b, c⟩, [Event.rawFbns data, Event.push data], none))
    ∧ (∀ s : ClientState, (handleFbnsReceive env s data).2.2 = none) := by
  refine ⟨?_, ?_, ?_⟩
  · intro uid h1 h2
    unfold handleFbnsReceive fbnsBody
    rw [if_pos rfl, if_pos h1, h2]
    rfl
  · intro h1 h2 h3 h4
    unfold handleFbnsReceive fbnsBody
    rw [if_pos rfl, if_neg h1, if_neg h2, if_neg h3, if_neg h4]
    rfl
  · intro s
    obtain ⟨r, bb, cc⟩ := s
    cases r with
    | false => rfl
    | true =>
      unfold handleFbnsReceive fbnsBody
      rw [if_pos rfl]
      dsimp only
      repeat' split
      all_goals rfl

/-- Witness for C8: the new_follower case and the catch-all case at
concrete pushes. -/
theorem fbnsDispatch_witness :
    handleFbnsReceive envT ⟨true, [], cacheT⟩ followerPushT
      = (⟨true, [], (fetchUser envT cacheT "u7" false).1⟩,
         [Event.rawFbns followerPushT,
          Event.newFollower (fetchUser envT cacheT "u7" false).2],
         none)
    ∧ handleFbnsReceive envT ⟨true, [], cacheT⟩ unknownPushT
      = (⟨true, [], cacheT⟩,
         [Event.rawFbns unknownPushT, Event.push unknownPushT], none) :=
  ⟨(fbnsDispatch envT [] cacheT followerPushT).1 "u7" rfl rfl,
   (fbnsDispatch envT [] cacheT unknownPushT).2.1 (by decide) (by decide)
     (by decide) (by decide)⟩

/-- C9: every engine operation preserves the invariant that each chat id
in pendingChats is also in chats — the inbound handlers (realtime and
push, buffering or live), the login chat-loading step, fetchChat, and the
readiness replay never insert into pendingChats alone. -/
theorem pendingChatsSubsetInvariant (env : Env) :
    (∀ s e, pendingSubset s.cache → pendingSubset ((processLive env s e).1).cache)
    ∧ (∀ threads c, pendingSubset c → pendingSubset (loadInboxThreads threads c))
    ∧ (∀ c chatID force, pendingSubset c →
        pendingSubset (fetchChat env c chatID force).1)
    ∧ (∀ s, pendingSubset s.cache → pendingSubset ((fireReady env s).1).cache) := by
  refine ⟨?_, ?_, ?_, ?_⟩
  · exact fun s e h => processLive_subset env s e h
  · exact fun threads c h => loadInboxThreads_subset threads c h
  · intro c chatID force h
    exact pendingSubset_of_preserves
      (cachePreserves_fetchChat env c chatID force (cachePreserves_refl c)) h
  · exact fun s h => fireReady_subset env s h

/-- Witness for C9 at a concrete state and event. -/
theorem pendingChatsSubsetInvariant_witness :
    pendingSubset ((processLive envT ⟨true, [], cacheT⟩
        (InEvent.fbns followerPushT)).1).cache :=
  (pendingChatsSubsetInvariant envT).1 ⟨true, [], cacheT⟩
    (InEvent.fbns followerPushT)
    (fun k hk => by simp [cacheT, chas, cget] at hk)

/-- C4: a replace patch on a cached chat whose payload member list holds
exactly one user id absent from the prior member list, with length
growing from N to N+1, makes the differ emit exactly one chatUserAdd
carrying the patched chat and that single new user and no chatUserRemove;
symmetrically a shrink by exactly one member emits exactly one
chatUserRemove with the single departed user and no chatUserAdd. -/
theorem replaceMembershipDelta (env : Env) (c : Cache) (tid : String)
    (chat : Chat) (p : ChatPayload) (hc : cget tid c.chats = some chat) :
    (∀ u, u ∈ p.users → chat.users.contains u = false →
      (∀ x ∈ p.users, chat.users.contains x = false → x = u) →
      p.users.length = chat.users.length + 1 →
      ((applyPatchData env c
          ⟨"replace", PatchPath.thread tid, PatchValue.chatJson (some p)⟩).2.1.filter
          Event.isChatUserAdd
        = [Event.chatUserAdd (Chat.patch chat p) u]
       ∧ (applyPatchData env c
          ⟨"replace", PatchPath.thread tid, PatchValue.chatJson (some p)⟩).2.1.filter
          Event.isChatUserRemove = []))
    ∧ (∀ r, r ∈ chat.users → p.users.contains r = false →
      (∀ x ∈ chat.users, p.users.contains x = false → x = r) →
      chat.users.length = p.users.length + 1 →
      ((applyPatchData env c
          ⟨"replace", PatchPath.thread tid, PatchValue.chatJson (some p)⟩).2.1.filter
          Event.isChatUserRemove
        = [Event.chatUserRemove (Chat.patch chat p) r]
       ∧ (applyPatchData env c
          ⟨"replace", PatchPath.thread tid, PatchValue.chatJson (some p)⟩).2.1.filter
          Event.isChatUserAdd = [])) := by
  constructor
  · intro u hu hnew huniq hlen
    rw [applyPatchData_replace_thread_cached env c tid chat p hc]
    dsimp only
    have hlt : chat.users.length < (Chat.patch chat p).users.length := by
      show chat.users.length < p.users.length
      omega
    have hfind : (Chat.patch chat p).users.find?
        (fun x => !(chat.users.contains x)) = some u := by
      show p.users.find? (fun x => !(chat.users.contains x)) = some u
      refine find?_eq_of_unique _ p.users u hu ?_ ?_
      · show (!(chat.users.contains u)) = true
        rw [hnew]
        rfl
      · intro x hx hpx
        refine huniq x hx ?_
        simpa using hpx
    have hmem := memberEvents_grow chat (Chat.patch chat p) u hlt hfind
    constructor
    · rw [replaceEvents, List.filter_append, List.filter_append,
        (nameEvents_no_member chat (Chat.patch chat p)).1,
        (callEvents_no_member chat (Chat.patch chat p)).1, hmem]
      simp [Event.isChatUserAdd]
    · rw [replaceEvents, List.filter_append, List.filter_append,
        (nameEvents_no_member chat (Chat.patch chat p)).2,
        (callEvents_no_member chat (Chat.patch chat p)).2, hmem]
      simp [Event.isChatUserRemove]
  · intro r hr hmiss huniq hlen
    rw [applyPatchData_replace_thread_cached env c tid chat p hc]
    dsimp only
    have hgt : (Chat.patch chat p).users.length < chat.users.length := by
      show p.users.length < chat.users.length
      omega
    have hfind : chat.users.find?
        (fun x => !((Chat.patch chat p).users.contains x)) = some r := by
      refine find?_eq_of_unique _ chat.users r hr ?_ ?_
      · show (!(p.users.contains r)) = true
        rw [hmiss]
        rfl
      · intro x hx hpx
        refine huniq x hx ?_
        simpa [Chat.patch] using hpx
    have hmem := memberEvents_shrink chat (Chat.patch chat p) r hgt hfind
    constructor
    · rw [replaceEvents, List.filter_append, List.filter_append,
        (nameEvents_no_member chat (Chat.patch chat p)).2,
        (callEvents_no_member chat (Chat.patch chat p)).2, hmem]
      simp [Event.isChatUserRemove]
    · rw [replaceEvents, List.filter_append, List.filter_append,
        (nameEvents_no_member chat (Chat.patch chat p)).1,
        (callEvents_no_member chat (Chat.patch chat p)).1, hmem]
      simp [Event.isChatUserAdd]

/-- Witness for C4 at a concrete growth of the member list by u2. -/
theorem replaceMembershipDelta_witness :
    (applyPatchData envT cacheT
        ⟨"replace", PatchPath.thread "t1", PatchValue.chatJson (some growPayloadT)⟩).2.1.filter
        Event.isChatUserAdd
      = [Event.chatUserAdd (Chat.patch chatT growPayloadT) "u2"] :=
  ((replaceMembershipDelta envT cacheT "t1" chatT growPayloadT (by decide)).1 "u2"
    (by decide) (by decide) (by decide) (by decide)).1

end Insta
